import Mathlib

/-!
Shallow embedding of `src/led_control.c` (a character-device LED driver).

The driver's observable behaviour is modelled as pure functions:
* hardware accesses become an explicit trace of `Event`s (32-bit register
  writes identified by their byte offset from the GPIO base, and sleeps);
* the global `last_error` buffer becomes a `List Char` threaded through the
  functions (the C buffer is 256 bytes, so the stored C string holds at most
  255 characters before its terminating NUL);
* the fallible `copy_from_user` / `copy_to_user` calls become a `Bool`
  parameter saying whether the copy faults, and the `ssize_t` results become
  `Except Int Nat` (`.error (-14)` is `-EFAULT`).

Text is represented as `List Char`, matching the C code's byte-array view.
-/

namespace LedControl

/-- `#define GPIO_SET_OFFSET 0x1C` — byte offset of the set register. -/
def GPIO_SET_OFFSET : Nat := 0x1C

/-- `#define GPIO_CLR_OFFSET 0x28` — byte offset of the clear register. -/
def GPIO_CLR_OFFSET : Nat := 0x28

/-- `#define ERROR_MSG_SIZE 256` — capacity of the `last_error` buffer. -/
def ERROR_MSG_SIZE : Nat := 256

/-- All ones in 32 bits, the width of the memory-mapped registers. -/
def mask32 : Nat := 2 ^ 32 - 1

/-- An observable hardware-facing action of the driver: a 32-bit write to the
register at the given byte offset from the GPIO base (`iowrite32`), or a
millisecond sleep (`msleep`). -/
inductive Event : Type where
  | write (byteOffset : Nat) (value : Nat)
  | sleep (ms : Nat)
deriving DecidableEq, Repr

/-- The value `1 << pin` truncated to the 32 bits that `iowrite32` transfers.
For `0 ≤ pin < 32` this is exactly `2 ^ pin`; for larger pins the C shift is
undefined behaviour, and the model keeps only the low 32 bits of `2 ^ pin`
(for a negative pin the model uses `Int.toNat pin = 0`). -/
def led_mask (pin : Int) : Nat := (1 <<< pin.toNat) % 2 ^ 32

/-- `gpio_set`: `iowrite32(1 << pin, gpio + GPIO_SET_OFFSET / 4)`.  The word
pointer arithmetic `gpio + 0x1C / 4` addresses the register at byte offset
`0x1C` from the base, which is what the event records. -/
def gpio_set (pin : Int) : List Event :=
  [Event.write GPIO_SET_OFFSET (led_mask pin)]

/-- `gpio_clear`: `iowrite32(1 << pin, gpio + GPIO_CLR_OFFSET / 4)`. -/
def gpio_clear (pin : Int) : List Event :=
  [Event.write GPIO_CLR_OFFSET (led_mask pin)]

/-- The body of one iteration of the `gpio_blink` loop:
set, sleep 50 ms, clear, sleep 50 ms. -/
def blinkCycle (pin : Int) : List Event :=
  gpio_set pin ++ [Event.sleep 50] ++ gpio_clear pin ++ [Event.sleep 50]

/-- The `for (i = 0; i < n; i++)` loop of `gpio_blink`, unrolled on the
number of iterations. -/
def blinkLoop (pin : Int) : Nat → List Event
  | 0 => []
  | n + 1 => blinkCycle pin ++ blinkLoop pin n

/-- `gpio_blink(pin, duration_ms)`: the loop `for (i = 0; i < duration_ms /
100; i++)` runs `duration_ms / 100` times when that C quotient (truncating
integer division, `Int.tdiv`) is positive and zero times otherwise, which is
`Int.toNat` of the quotient. -/
def gpio_blink (pin : Int) (duration_ms : Int) : List Event :=
  blinkLoop pin (Int.toNat (Int.tdiv duration_ms 100))

/-- The register-value transformation of `set_gpio_direction_out` on the
function-select register `pin / 10`: read `value`, clear the 3-bit field at
shift `(pin % 10) * 3` (`value &= ~(7 << shift)` in 32-bit unsigned
arithmetic), set the field to `001`, write back. -/
def gpfsel_out_value (pin : Nat) (value : Nat) : Nat :=
  (value &&& (mask32 ^^^ (7 <<< ((pin % 10) * 3)))) ||| (1 <<< ((pin % 10) * 3))

/-- `set_gpio_direction_out(pin)` acting on the bank of function-select
registers (register index `pin / 10` is read, modified, written back;
all other registers are untouched). -/
def set_gpio_direction_out (regs : Nat → Nat) (pin : Nat) : Nat → Nat :=
  fun r => if r = pin / 10 then gpfsel_out_value pin (regs (pin / 10)) else regs r

/-- `set_last_error`: `vsnprintf(last_error, ERROR_MSG_SIZE, fmt, args)`
stores at most `ERROR_MSG_SIZE - 1 = 255` characters plus the terminating
NUL, so the stored string is the message truncated to 255 characters. -/
def set_last_error (msg : List Char) : List Char :=
  msg.take (ERROR_MSG_SIZE - 1)

/-- The whitespace test of C's `isspace`, used by `sscanf` conversions. -/
def isSpaceC (c : Char) : Bool :=
  c = ' ' || c = '\t' || c = '\n' || c = '\x0b' || c = '\x0c' || c = '\r'

/-- Digit-string to number, most significant first. -/
def natOfDigits (ds : List Char) : Nat :=
  ds.foldl (fun acc c => acc * 10 + (c.toNat - 48)) 0

/-- The `%d` conversion of `sscanf`: skip whitespace, accept an optional sign
followed by at least one decimal digit, return the value and the rest of the
input; `none` on matching failure. -/
def scanInt (l : List Char) : Option (Int × List Char) :=
  let l1 := l.dropWhile isSpaceC
  match l1 with
  | '-' :: rest =>
      let ds := rest.takeWhile (fun c => c.isDigit)
      if ds.isEmpty then none
      else some (-(natOfDigits ds : Int), rest.dropWhile (fun c => c.isDigit))
  | '+' :: rest =>
      let ds := rest.takeWhile (fun c => c.isDigit)
      if ds.isEmpty then none
      else some ((natOfDigits ds : Int), rest.dropWhile (fun c => c.isDigit))
  | _ =>
      let ds := l1.takeWhile (fun c => c.isDigit)
      if ds.isEmpty then none
      else some ((natOfDigits ds : Int), l1.dropWhile (fun c => c.isDigit))

/-- `sscanf(input, "%d:%9s", &pin, action)` succeeding with both conversions
(`== 2`): a `%d` integer, then the literal character `:`, then `%9s` — skip
whitespace and read at most 9 non-whitespace characters, at least one.
Returns `none` exactly when the C call returns a count different from 2. -/
def parseCmd (l : List Char) : Option (Int × List Char) :=
  match scanInt l with
  | none => none
  | some (pin, rest) =>
    match rest with
    | [] => none
    | c :: rest2 =>
      if c = ':' then
        let rest3 := rest2.dropWhile isSpaceC
        let tok := (rest3.takeWhile (fun d => !isSpaceC d)).take 9
        if tok.isEmpty then none else some (pin, tok)
      else none

/-- `handle_input(input)` given the current `last_error` contents: returns the
new `last_error` contents and the trace of hardware events. -/
def handle_input (input : List Char) (lastError : List Char) :
    List Char × List Event :=
  match parseCmd input with
  | none => (set_last_error "Invalid input format\n".toList, [])
  | some (pin, action) =>
    if action = "on".toList then (lastError, gpio_set pin)
    else if action = "off".toList then (lastError, gpio_clear pin)
    else if action = "blink".toList then (lastError, gpio_blink pin 5000)
    else
      (set_last_error ("Unknown action: ".toList ++ action ++ "\n".toList), [])

/-- `led_ctrl_dev_read(filep, buffer, len, offset)`: returns the `ssize_t`
result (`.error (-14)` is `-EFAULT`), the new `*offset`, and the bytes copied
to the caller.  `copyFault` says whether `copy_to_user` would fault. -/
def led_ctrl_dev_read (lastError : List Char) (len : Nat) (off : Nat)
    (copyFault : Bool) : Except Int Nat × Nat × List Char :=
  let errorLen := lastError.length
  if off ≥ errorLen then (Except.ok 0, off, [])
  else
    let l := min len (errorLen - off)
    if copyFault then (Except.error (-14), off, [])
    else (Except.ok l, off + l, (lastError.drop off).take l)

/-- `led_ctrl_dev_write(filep, buffer, len, offset)`: clamps `len` to 255,
copies that many caller bytes into a zero-filled 256-byte buffer (so the C
string `handle_input` sees stops at the first NUL byte), then runs
`handle_input`.  Returns the `ssize_t` result, the new `last_error` contents
and the hardware event trace.  `copyFault` says whether `copy_from_user`
would fault. -/
def led_ctrl_dev_write (lastError : List Char) (buf : List Char) (len : Nat)
    (copyFault : Bool) : Except Int Nat × List Char × List Event :=
  let len1 := min len 255
  if copyFault then (Except.error (-14), lastError, [])
  else
    let input := (buf.take len1).takeWhile (fun c => c ≠ '\x00')
    let r := handle_input input lastError
    (Except.ok len1, r.1, r.2)

/-- Modelled from the spec: the hardware semantics of the dedicated set/clear
registers, absent from `src/` because it lives in the GPIO silicon — "a
write-only register where writing a bit atomically forces the corresponding
pin high (set) or low (clear) without affecting other pins".  The simulated
bank keeps the 32 output levels as the bits of a natural number; a write to
the set register ORs the mask in, a write to the clear register clears the
mask's bits, and any other event leaves the levels unchanged. -/
def applyEvent (levels : Nat) : Event → Nat
  | Event.write off v =>
      if off = GPIO_SET_OFFSET then levels ||| v
      else if off = GPIO_CLR_OFFSET then levels &&& (mask32 ^^^ v)
      else levels
  | Event.sleep _ => levels

/-- Run a trace of events on the simulated output-level bank. -/
def runEvents (levels : Nat) (evs : List Event) : Nat :=
  evs.foldl applyEvent levels

/-- The `last_error` contents after a sequence of device writes, starting
from the zero-initialised buffer (`static char last_error[256] = {0}`), i.e.
the empty string.  Each request is a caller buffer, a length, and whether the
user-space copy faults. -/
def lastErrorAfter (reqs : List (List Char × Nat × Bool)) : List Char :=
  reqs.foldl (fun e req => (led_ctrl_dev_write e req.1 req.2.1 req.2.2).2.1) []

/-! ## Helper lemmas -/

/-- The `%9s` field width: any token produced by `parseCmd` has at most 9
characters. -/
theorem parseCmd_token_length {l : List Char} {pin : Int} {a : List Char}
    (h : parseCmd l = some (pin, a)) : a.length ≤ 9 := by
  unfold parseCmd at h
  cases hs : scanInt l with
  | none => rw [hs] at h; exact absurd h (by simp)
  | some pr =>
    obtain ⟨p, rest⟩ := pr
    rw [hs] at h
    cases rest with
    | nil => exact absurd h (by simp)
    | cons c rest2 =>
      dsimp only at h
      by_cases hc : c = ':'
      · rw [if_pos hc] at h
        by_cases he :
            ((rest2.dropWhile isSpaceC).takeWhile (fun d => !isSpaceC d)).take 9
              |>.isEmpty
        · rw [if_pos he] at h; exact absurd h (by simp)
        · rw [if_neg he] at h
          have := (Option.some_inj.mp h)
          have ha : a =
              ((rest2.dropWhile isSpaceC).takeWhile (fun d => !isSpaceC d)).take 9 := by
            exact congrArg Prod.snd this.symm
          rw [ha]
          simp
      · rw [if_neg hc] at h; exact absurd h (by simp)

/-- On parse success, `handle_input` is the dispatch if-chain on the token. -/
theorem handle_input_some {input err : List Char} {pin : Int} {a : List Char}
    (h : parseCmd input = some (pin, a)) :
    handle_input input err =
      (if a = "on".toList then (err, gpio_set pin)
       else if a = "off".toList then (err, gpio_clear pin)
       else if a = "blink".toList then (err, gpio_blink pin 5000)
       else
         (set_last_error ("Unknown action: ".toList ++ a ++ "\n".toList), [])) := by
  unfold handle_input
  rw [h]

/-! ## C1: parse failure records "Invalid input format" and writes nothing -/

/-- C1 (counterexample to the claim as stated): on the unparsable input
`"garbage"` the Last Error buffer is not exactly `"Invalid input format"` —
the driver stores the text with a trailing newline. -/
theorem C1_error_text_not_exact :
    (handle_input "garbage".toList []).1 ≠ "Invalid input format".toList := by
  decide

/-- C1 (amended): for every input that fails to parse as `<integer>:<token>`,
`handle_input` sets the Last Error buffer to exactly
`"Invalid input format\n"` (trailing newline included) and performs no
hardware register write. -/
theorem C1_parse_failure_sets_error (input err : List Char)
    (h : parseCmd input = none) :
    handle_input input err = ("Invalid input format\n".toList, []) := by
  unfold handle_input
  rw [h]
  dsimp only
  decide

/-- C1 witness: the amended claim at the concrete input `"garbage"`. -/
theorem C1_parse_failure_sets_error_witness :
    parseCmd "garbage".toList = none ∧
      handle_input "garbage".toList "old error".toList =
        ("Invalid input format\n".toList, []) :=
  ⟨by decide,
   C1_parse_failure_sets_error "garbage".toList "old error".toList (by decide)⟩

/-! ## C2: out-of-range pins are not rejected -/

/-- C2 (evaluation at the failing input `"40:on"`): the dispatch path does
not validate the pin range.  Pin 40 is dispatched to `gpio_set`, which
performs a hardware register write (here with the 32-bit truncation of the
undefined C shift `1 << 40`, i.e. value 0) and records no error — instead of
the out-of-range rejection the claim requires. -/
theorem C2_out_of_range_pin_not_rejected :
    handle_input "40:on".toList [] = ([], [Event.write GPIO_SET_OFFSET 0]) := by
  decide

/-! ## C3: unknown action records "Unknown action: <token>" -/

/-- C3 (counterexample to the claim as stated): on input `"21:dance"` the
Last Error buffer is not exactly `"Unknown action: dance"` — the driver
stores the text with a trailing newline. -/
theorem C3_unknown_action_text_not_exact :
    (handle_input "21:dance".toList []).1 ≠ "Unknown action: dance".toList := by
  decide

/-- C3 (amended): for every syntactically valid command whose token is none
of `on`, `off`, `blink`, `handle_input` sets the Last Error buffer to
`"Unknown action: <token>\n"` (trailing newline included) and performs no
hardware register write. -/
theorem C3_unknown_action_sets_error (input err : List Char) (pin : Int)
    (a : List Char) (hp : parseCmd input = some (pin, a))
    (h1 : a ≠ "on".toList) (h2 : a ≠ "off".toList) (h3 : a ≠ "blink".toList) :
    handle_input input err =
      ("Unknown action: ".toList ++ a ++ "\n".toList, []) := by
  have h16 : ("Unknown action: ".toList).length = 16 := by decide
  have hnl : ("\n".toList).length = 1 := by decide
  have h9 := parseCmd_token_length hp
  have hlen : ("Unknown action: ".toList ++ a ++ "\n".toList).length ≤
      ERROR_MSG_SIZE - 1 := by
    simp only [List.length_append, h16, hnl, ERROR_MSG_SIZE]
    omega
  rw [handle_input_some hp, if_neg h1, if_neg h2, if_neg h3]
  unfold set_last_error
  rw [List.take_of_length_le hlen]

/-- C3 witness: the amended claim at the concrete input `"21:dance"`. -/
theorem C3_unknown_action_sets_error_witness :
    parseCmd "21:dance".toList = some (21, "dance".toList) ∧
      handle_input "21:dance".toList "old".toList =
        ("Unknown action: ".toList ++ "dance".toList ++ "\n".toList, []) :=
  ⟨by decide,
   C3_unknown_action_sets_error "21:dance".toList "old".toList 21
     "dance".toList (by decide) (by decide) (by decide) (by decide)⟩

/-- For a pin below 32, the C mask `1 << pin` is exactly `2 ^ pin`. -/
theorem led_mask_of_lt {pin : Nat} (h : pin < 32) :
    led_mask (pin : Int) = 2 ^ pin := by
  unfold led_mask
  rw [Int.toNat_natCast, Nat.shiftLeft_eq, one_mul]
  exact Nat.mod_eq_of_lt (Nat.pow_lt_pow_right (by norm_num) h)

/-- Running the `gpio_set` trace ORs its mask into the output levels. -/
theorem runEvents_gpio_set (levels : Nat) (pin : Int) :
    runEvents levels (gpio_set pin) = levels ||| led_mask pin := by
  simp [runEvents, gpio_set, applyEvent]

/-- Running the `gpio_clear` trace clears its mask's bits. -/
theorem runEvents_gpio_clear (levels : Nat) (pin : Int) :
    runEvents levels (gpio_clear pin) =
      levels &&& (mask32 ^^^ led_mask pin) := by
  simp [runEvents, gpio_clear, applyEvent, GPIO_SET_OFFSET, GPIO_CLR_OFFSET]

/-- Traces compose: running a concatenation runs the pieces in order. -/
theorem runEvents_append (levels : Nat) (a b : List Event) :
    runEvents levels (a ++ b) = runEvents (runEvents levels a) b := by
  simp [runEvents, List.foldl_append]

/-- Bit `i` of the 32-bit all-ones mask is set exactly for `i < 32`. -/
theorem mask32_testBit (i : Nat) : mask32.testBit i = decide (i < 32) := by
  rw [mask32, Nat.testBit_two_pow_sub_one]

/-! ## C4: set/clear write `1 << pin` to 0x1C / 0x28, round-trip, no crosstalk -/

/-- C4: for every pin in the valid range of the 32-bit set/clear registers,
`gpio_set` writes exactly `1 << pin = 2 ^ pin` to byte offset `0x1C` and
`gpio_clear` writes it to byte offset `0x28`; over the simulated register
bank, set leaves the pin's bit high, set followed by clear leaves it low,
and every other pin's bit is unaffected by either operation. -/
theorem C4_set_clear_roundtrip (pin : Nat) (hp : pin < 32) (levels : Nat)
    (q : Nat) (hq : q < 32) (hne : q ≠ pin) :
    gpio_set (pin : Int) = [Event.write GPIO_SET_OFFSET (2 ^ pin)] ∧
    gpio_clear (pin : Int) = [Event.write GPIO_CLR_OFFSET (2 ^ pin)] ∧
    (runEvents levels (gpio_set (pin : Int))).testBit pin = true ∧
    (runEvents levels
        (gpio_set (pin : Int) ++ gpio_clear (pin : Int))).testBit pin = false ∧
    (runEvents levels (gpio_set (pin : Int))).testBit q = levels.testBit q ∧
    (runEvents levels
        (gpio_set (pin : Int) ++ gpio_clear (pin : Int))).testBit q =
      levels.testBit q := by
  have hm := led_mask_of_lt hp
  have hqp : (2 ^ pin).testBit q = false := Nat.testBit_two_pow_of_ne
    (fun hcontra => hne hcontra.symm)
  refine ⟨by rw [gpio_set, hm], by rw [gpio_clear, hm], ?_, ?_, ?_, ?_⟩
  · rw [runEvents_gpio_set, hm]
    simp [Nat.testBit_two_pow_self]
  · rw [runEvents_append, runEvents_gpio_set, runEvents_gpio_clear, hm]
    simp [mask32_testBit, Nat.testBit_two_pow_self, hp]
  · rw [runEvents_gpio_set, hm]
    simp [hqp]
  · rw [runEvents_append, runEvents_gpio_set, runEvents_gpio_clear, hm]
    simp [mask32_testBit, hqp, hq]

/-- C4 witness: pin 21, an arbitrary starting level pattern 5, other pin 3. -/
theorem C4_set_clear_roundtrip_witness :
    gpio_set ((21 : Nat) : Int) = [Event.write GPIO_SET_OFFSET (2 ^ 21)] ∧
    gpio_clear ((21 : Nat) : Int) = [Event.write GPIO_CLR_OFFSET (2 ^ 21)] ∧
    (runEvents 5 (gpio_set ((21 : Nat) : Int))).testBit 21 = true ∧
    (runEvents 5
        (gpio_set ((21 : Nat) : Int) ++ gpio_clear ((21 : Nat) : Int))).testBit 21
      = false ∧
    (runEvents 5 (gpio_set ((21 : Nat) : Int))).testBit 3 = Nat.testBit 5 3 ∧
    (runEvents 5
        (gpio_set ((21 : Nat) : Int) ++ gpio_clear ((21 : Nat) : Int))).testBit 3
      = Nat.testBit 5 3 :=
  C4_set_clear_roundtrip 21 (by decide) 5 3 (by decide) (by decide)

/-! ## C5: configure_as_output is idempotent -/

/-- Boolean absorption used for the function-select field update, under the
side condition that the set-bit never sits inside the kept mask. -/
theorem bool_absorb (a m s : Bool) (h : s = true → m = false) :
    ((((a && m) || s) && m) || s) = ((a && m) || s) := by
  cases s
  · cases m <;> cases a <;> rfl
  · simp [h rfl]

/-- A set bit of `1 <<< k` pins down the index. -/
theorem shift_one_bit {k i : Nat} (h : (1 <<< k).testBit i = true) : i = k := by
  rw [Nat.testBit_shiftLeft] at h
  obtain ⟨h1, h2⟩ := Bool.and_eq_true_iff.mp h
  have h3 := Nat.testBit_one_eq_true_iff_self_eq_zero.mp h2
  have h4 := of_decide_eq_true h1
  omega

/-- The function-select register update of `set_gpio_direction_out` is
idempotent on the register value. -/
theorem gpfsel_out_value_idem (pin v : Nat) :
    gpfsel_out_value pin (gpfsel_out_value pin v) =
      gpfsel_out_value pin v := by
  apply Nat.eq_of_testBit_eq
  intro i
  unfold gpfsel_out_value
  simp only [Nat.testBit_or, Nat.testBit_and]
  apply bool_absorb
  intro hs
  have hik : i = (pin % 10) * 3 := shift_one_bit hs
  subst hik
  have hlt : (pin % 10) * 3 < 32 := by
    have h10 : pin % 10 < 10 := Nat.mod_lt _ (by norm_num)
    omega
  have h7 : Nat.testBit 7 0 = true := by decide
  simp only [Nat.testBit_xor, mask32, Nat.testBit_two_pow_sub_one,
    Nat.testBit_shiftLeft]
  simp [hlt, Nat.sub_self, h7]

/-- C5: `set_gpio_direction_out` (configure_as_output) is idempotent —
applying it twice to the same pin from the same initial register-file state
yields the same function-select register contents as applying it once. -/
theorem C5_configure_as_output_idempotent (regs : Nat → Nat) (pin : Nat) :
    set_gpio_direction_out (set_gpio_direction_out regs pin) pin =
      set_gpio_direction_out regs pin := by
  funext r
  by_cases hr : r = pin / 10
  · simp [set_gpio_direction_out, hr, gpfsel_out_value_idem]
  · simp [set_gpio_direction_out, hr]

/-! ## C6: blink performs duration_ms / 100 complete cycles -/

/-- The blink loop is the cycle body repeated `n` times. -/
theorem blinkLoop_eq_flatten (pin : Int) (n : Nat) :
    blinkLoop pin n = List.flatten (List.replicate n (blinkCycle pin)) := by
  induction n with
  | zero => rfl
  | succ k ih => simp [blinkLoop, List.replicate_succ, ih]

/-- A non-positive duration gives zero loop iterations (C truncating
division followed by the `i < bound` loop guard). -/
theorem blink_count_nonpos {d : Int} (h : d ≤ 0) :
    Int.toNat (Int.tdiv d 100) = 0 := by
  apply Int.toNat_of_nonpos
  have hneg : d = -(-d) := by ring
  rw [hneg, Int.neg_tdiv]
  have h2 : (0 : Int) ≤ -d := by omega
  have h3 := Int.tdiv_nonneg h2 (by norm_num : (0 : Int) ≤ 100)
  omega

/-- C6: `gpio_blink` performs exactly `duration_ms / 100` (C truncating
integer division) complete cycles of set, 50 ms sleep, clear, 50 ms sleep; a
non-positive duration yields zero cycles and hence no hardware access;
`blink(pin, 500)` performs exactly 5 cycles; and the `blink` command
dispatches `gpio_blink` with the fixed duration 5000 ms. -/
theorem C6_blink_cycle_count (pin d : Int) (err : List Char) :
    gpio_blink pin d =
      List.flatten
        (List.replicate (Int.toNat (Int.tdiv d 100)) (blinkCycle pin)) ∧
    (d ≤ 0 → gpio_blink pin d = []) ∧
    gpio_blink pin 500 = List.flatten (List.replicate 5 (blinkCycle pin)) ∧
    handle_input "21:blink".toList err = (err, gpio_blink 21 5000) := by
  refine ⟨blinkLoop_eq_flatten pin _, ?_, ?_, ?_⟩
  · intro h
    unfold gpio_blink
    rw [blink_count_nonpos h]
    rfl
  · have h5 : Int.toNat (Int.tdiv 500 100) = 5 := by decide
    unfold gpio_blink
    rw [h5]
    exact blinkLoop_eq_flatten pin 5
  · rw [handle_input_some
      (by decide : parseCmd "21:blink".toList = some (21, "blink".toList))]
    rw [if_neg (by decide), if_neg (by decide), if_pos rfl]

/-- C6 witness: zero cycles for duration −500; the blink dispatch at the
concrete command `"21:blink"`. -/
theorem C6_blink_cycle_count_witness :
    gpio_blink 2 (-500) = [] ∧
      handle_input "21:blink".toList "prev".toList =
        ("prev".toList, gpio_blink 21 5000) :=
  ⟨(C6_blink_cycle_count 2 (-500) "prev".toList).2.1 (by decide),
   (C6_blink_cycle_count 2 (-500) "prev".toList).2.2.2⟩

/-! ## C7: success leaves Last Error unchanged -/

/-- C7: every successfully parsed command whose token is recognised (`on`,
`off` or `blink`) leaves the Last Error buffer exactly as it was — success
never clears or overwrites a previously recorded error. -/
theorem C7_success_leaves_error_unchanged (input err : List Char) (pin : Int)
    (a : List Char) (hp : parseCmd input = some (pin, a))
    (ha : a = "on".toList ∨ a = "off".toList ∨ a = "blink".toList) :
    (handle_input input err).1 = err := by
  rw [handle_input_some hp]
  rcases ha with h | h | h
  · rw [if_pos h]
  · rw [if_neg (by rw [h]; decide), if_pos h]
  · rw [if_neg (by rw [h]; decide), if_neg (by rw [h]; decide), if_pos h]

/-- C7 witness: `"21:on"` with a previously recorded error. -/
theorem C7_success_leaves_error_unchanged_witness :
    (handle_input "21:on".toList "previous error".toList).1 =
      "previous error".toList :=
  C7_success_leaves_error_unchanged "21:on".toList "previous error".toList 21
    "on".toList (by decide) (Or.inl rfl)

/-! ## C8: read returns bounded slices and clean EOF -/

/-- C8: a fault-free read of the error channel returns some `k ≤ max_len`
bytes — the `k` bytes of the stored Last-Error text starting at `offset` —
and advances the offset by exactly `k`; once the offset is at or past the
end of the stored text it returns zero bytes (`Except.ok 0`, a clean EOF,
not an error). -/
theorem C8_read_semantics (err : List Char) (len off : Nat) :
    ∃ k, led_ctrl_dev_read err len off false =
        (Except.ok k, off + k, (err.drop off).take k) ∧
      k ≤ len ∧ ((err.drop off).take k).length = k ∧
      (err.length ≤ off → k = 0) := by
  unfold led_ctrl_dev_read
  by_cases h : off ≥ err.length
  · refine ⟨0, ?_, Nat.zero_le _, by simp, fun _ => rfl⟩
    rw [if_pos h]
    simp
  · rw [if_neg h]
    refine ⟨min len (err.length - off), rfl, Nat.min_le_left _ _, ?_, ?_⟩
    · rw [List.length_take, List.length_drop]
      omega
    · intro hle
      omega

/-- C8 witness: reading 7 bytes of the stored parse-error text from offset 0
returns 7 bytes and advances the offset to 7. -/
theorem C8_read_semantics_witness :
    ∃ k, led_ctrl_dev_read "Invalid input format\n".toList 7 0 false =
        (Except.ok k, 0 + k, (("Invalid input format\n".toList).drop 0).take k) ∧
      k ≤ 7 ∧ ((("Invalid input format\n".toList).drop 0).take k).length = k ∧
      (("Invalid input format\n".toList).length ≤ 0 → k = 0) :=
  C8_read_semantics "Invalid input format\n".toList 7 0

/-! ## C9: user-copy faults give -EFAULT and touch nothing -/

/-- C9: when the user-space copy faults, a write returns `-EFAULT` (`-14`),
interprets no command, updates no Last Error and performs no hardware
action; a read whose copy is attempted (offset still inside the text) and
faults returns `-EFAULT` and does not advance the offset. -/
theorem C9_copy_fault_efault (err buf : List Char) (len maxLen off : Nat)
    (hoff : off < err.length) :
    led_ctrl_dev_write err buf len true = (Except.error (-14), err, []) ∧
    led_ctrl_dev_read err maxLen off true = (Except.error (-14), off, []) := by
  constructor
  · rfl
  · unfold led_ctrl_dev_read
    rw [if_neg (by omega)]
    rfl

/-- C9 witness: a faulting write against error state `"abc"`, and a faulting
read at offset 1 of that 3-byte text. -/
theorem C9_copy_fault_efault_witness :
    led_ctrl_dev_write "abc".toList "21:on".toList 5 true =
        (Except.error (-14), "abc".toList, []) ∧
      led_ctrl_dev_read "abc".toList 4 1 true = (Except.error (-14), 1, []) :=
  C9_copy_fault_efault "abc".toList "21:on".toList 5 4 1 (by decide)

/-! ## C10: the Last Error buffer always stays within capacity -/

/-- Every message stored by `set_last_error` fits in the buffer: at most 255
characters before the terminating NUL. -/
theorem set_last_error_length (msg : List Char) :
    (set_last_error msg).length ≤ 255 := by
  unfold set_last_error ERROR_MSG_SIZE
  rw [List.length_take]
  omega

/-- `handle_input` preserves the Last-Error capacity bound. -/
theorem handle_input_error_length {input err : List Char}
    (h : err.length ≤ 255) : ((handle_input input err).1).length ≤ 255 := by
  unfold handle_input
  cases hp : parseCmd input with
  | none => exact set_last_error_length _
  | some pr =>
    obtain ⟨pin, a⟩ := pr
    dsimp only
    by_cases h1 : a = "on".toList
    · rw [if_pos h1]; exact h
    · rw [if_neg h1]
      by_cases h2 : a = "off".toList
      · rw [if_pos h2]; exact h
      · rw [if_neg h2]
        by_cases h3 : a = "blink".toList
        · rw [if_pos h3]; exact h
        · rw [if_neg h3]; exact set_last_error_length _

/-- The device write path preserves the Last-Error capacity bound. -/
theorem led_ctrl_dev_write_error_length {err buf : List Char} {len : Nat}
    {fault : Bool} (h : err.length ≤ 255) :
    ((led_ctrl_dev_write err buf len fault).2.1).length ≤ 255 := by
  unfold led_ctrl_dev_write
  cases fault
  · exact handle_input_error_length h
  · exact h

/-- C10: starting from the zero-initialised buffer, after any sequence of
device writes the Last Error buffer holds a string of length at most 255 —
so it is always NUL-terminated within its 256-byte capacity. -/
theorem C10_last_error_bounded (reqs : List (List Char × Nat × Bool)) :
    (lastErrorAfter reqs).length ≤ 255 := by
  unfold lastErrorAfter
  have general : ∀ (rs : List (List Char × Nat × Bool)) (e : List Char),
      e.length ≤ 255 →
      (rs.foldl
        (fun e req => (led_ctrl_dev_write e req.1 req.2.1 req.2.2).2.1)
        e).length ≤ 255 := by
    intro rs
    induction rs with
    | nil => intro e he; exact he
    | cons r rs ih =>
      intro e he
      exact ih _ (led_ctrl_dev_write_error_length he)
  exact general reqs [] (by simp)

end LedControl
